import Mathlib

/-!
Shallow embedding of `src/analysis.py` (GMR analysis engine) and proofs of
the specified properties.

Modelling conventions:
* A pandas DataFrame of movement records is a `List Row`; its cell values in
  the time columns are `Val` (pandas object dtype: numbers or strings).
* `df['col'].unique()` / set building becomes `List.dedup`; the outputs only
  depend on these lists through cardinality and membership, so first- versus
  last-occurrence order of `unique` is immaterial.
* Percentages are computed in `Rat` (the Python floats are exact here only in
  the special-cased `0` branches, which is all any claim quantifies over).
* `pd.to_datetime` on a cell: numeric cells always convert (pandas reads them
  as epoch offsets); string parsing is beyond the source and is abstracted as
  a parameter `parseStr : String → Option Int`, where `none` models a raised
  parse error.  `pd.to_datetime` on a series raises as soon as one element
  fails, which `toDatetimeSeries` models as an all-or-nothing `Option`.
* The float statistics dict of `calculate_records_distribution`
  (mean/median/min/max/std) is referenced by no claim and is not modelled;
  only the distribution table the function returns alongside it is.
-/

namespace GMR

/-- A cell value of the tabular input: the time columns hold either numbers
or strings (pandas object dtype). -/
inductive Val where
  | int (n : Int)
  | str (s : String)
deriving DecidableEq, Repr

/-- One movement record, a row of the input table with the five required
columns `global_object_id`, `zone_id`, `zone_entry_time`, `zone_exit_time`,
`dwell_time`. -/
structure Row where
  global_object_id : Nat
  zone_id : Int
  zone_entry_time : Val
  zone_exit_time : Val
  dwell_time : Int
deriving DecidableEq, Repr

/-- The distinct `global_object_id` values, `df['global_object_id'].unique()`. -/
def objectIds (df : List Row) : List Nat :=
  (df.map (·.global_object_id)).dedup

/-- Distinct objects having a row in zone `z`:
`set(df[df['zone_id'] == z]['global_object_id'].unique())`. -/
def zoneVisitors (df : List Row) (z : Int) : List Nat :=
  ((df.filter (fun r => r.zone_id == z)).map (·.global_object_id)).dedup

/-- Distinct zones of object `o`, one entry of
`df.groupby('global_object_id')['zone_id'].apply(set)`. -/
def zonesVisited (df : List Row) (o : Nat) : List Int :=
  ((df.filter (fun r => r.global_object_id == o)).map (·.zone_id)).dedup

/-- Rows contributed by object `o`, one entry of
`df.groupby('global_object_id').size()`. -/
def groupSize (df : List Row) (o : Nat) : Nat :=
  (df.filter (fun r => r.global_object_id == o)).length

/-- The per-object row counts, `df.groupby('global_object_id').size()`. -/
def groupSizes (df : List Row) : List Nat :=
  (objectIds df).map (groupSize df)

/-- The distinct zones other than the entrance zone `1`. -/
def nonEntranceZones (df : List Row) : Finset Int :=
  ((df.map (·.zone_id)).toFinset).filter (· ≠ 1)

/-- Embedding of `calculate_conversion_rates` (analysis.py lines 10-42): for every distinct
zone other than `1`, in ascending order, the pair
(`Zone ID`, `Unique Conversion Count`), the count being the size of the
intersection of zone 1's visitor set with that zone's visitor set. -/
def calculate_conversion_rates (df : List Row) : List (Int × Nat) :=
  ((nonEntranceZones df).sort (· ≤ ·)).map
    (fun z => (z, ((zoneVisitors df 1).inter (zoneVisitors df z)).length))

/-- Objects whose zone set contains the entrance zone, the filtered
`person_zones[person_zones.apply(lambda zones: 1 in zones)]` of
`calculate_zone_frequency`. -/
def entranceVisitors (df : List Row) : List Nat :=
  (objectIds df).filter (fun o => decide ((1 : Int) ∈ zonesVisited df o))

/-- Per entrance-visiting object, the number of distinct zones it visited
(`zone_counts` in `calculate_zone_frequency`). -/
def zoneCounts (df : List Row) : List Nat :=
  (entranceVisitors df).map (fun o => (zonesVisited df o).length)

/-- Computes `max(zone_counts) if len(zone_counts) > 0 else 5`. -/
def maxZones (df : List Row) : Nat :=
  ((zoneCounts df).max?).getD 5

/-- Embedding of `calculate_zone_frequency` (analysis.py lines 45-79): cumulative counts
(`Number of Zones` = `"t+"`, `Count`) for thresholds
`t ∈ range(1, max(6, max_zones + 1))`. -/
def calculate_zone_frequency (df : List Row) : List (String × Nat) :=
  (List.range' 1 (max 6 (maxZones df + 1) - 1)).map
    (fun t => (toString t ++ "+", ((zoneCounts df).filter (fun c => decide (t ≤ c))).length))

/-- Embedding of `calculate_missing_zone1_percentage` (analysis.py lines 82-106): the
triple (percentage, missing count, total distinct objects), percentage
special-cased to `0` for zero objects. -/
def calculate_missing_zone1_percentage (df : List Row) : Rat × Nat × Nat :=
  let allPeople := objectIds df
  let zone1People := zoneVisitors df 1
  let missing := (allPeople.filter (fun o => decide (o ∉ zone1People))).length
  let total := allPeople.length
  ((if 0 < total then (missing : Rat) / (total : Rat) * 100 else 0), missing, total)

/-- Model of `pd.to_datetime` on one cell: numeric values always convert, string
parsing is the abstract `parseStr` (`none` = raised parse error). -/
def pdToDatetime (parseStr : String → Option Int) : Val → Option Int
  | .int n => some n
  | .str s => parseStr s

/-- Model of `pd.to_datetime` on a series: raises (models as `none`) as soon as any
element fails to parse. -/
def toDatetimeSeries (parseStr : String → Option Int) : List Val → Option (List Int)
  | [] => some []
  | v :: vs =>
    match pdToDatetime parseStr v, toDatetimeSeries parseStr vs with
    | some t, some ts => some (t :: ts)
    | _, _ => none

/-- Minimum of a list of timestamps (used only on nonempty lists). -/
def listMin (l : List Int) : Int := l.foldr min (l.headD 0)

/-- Maximum of a list of timestamps (used only on nonempty lists). -/
def listMax (l : List Int) : Int := l.foldr max (l.headD 0)

/-- The result dict of `get_summary_statistics`. -/
structure SummaryStats where
  total_records : Nat
  unique_objects : Nat
  unique_zones : Nat
  unique_property_enter : Nat
  date_range : Option (Int × Int)
deriving DecidableEq, Repr

/-- Computes `df[df['zone_entry_time'] != '-1']['zone_entry_time']`: the entry-time
values retained for date-range parsing (only the string `"-1"` is dropped). -/
def validEntryTimes (df : List Row) : List Val :=
  (df.filter (fun r => r.zone_entry_time != Val.str "-1")).map (·.zone_entry_time)

/-- Embedding of `get_summary_statistics` (analysis.py lines 109-141).  `hasEntryCol`
models `'zone_entry_time' in df.columns`; `parseStr` the string behaviour of
`pd.to_datetime`.  The `try/except: pass` around the series conversion keeps
`date_range = None` when any retained value fails to parse. -/
def get_summary_statistics (parseStr : String → Option Int) (hasEntryCol : Bool)
    (df : List Row) : SummaryStats :=
  { total_records := df.length
    unique_objects := (objectIds df).length
    unique_zones := ((df.map (·.zone_id)).dedup).length
    unique_property_enter := (zoneVisitors df 1).length
    date_range :=
      if hasEntryCol then
        let valid := validEntryTimes df
        if 0 < valid.length then
          match toDatetimeSeries parseStr valid with
          | some ts => some (listMin ts, listMax ts)
          | none => none
        else none
      else none }

/-- The six fixed record-count categories shared by
`calculate_records_distribution` and `calculate_enter_exit_analysis`:
label and membership test on a per-object row count. -/
def categories : List (String × (Nat → Bool)) :=
  [("1", fun x => x == 1),
   ("2-5", fun x => decide (2 ≤ x ∧ x ≤ 5)),
   ("6-10", fun x => decide (6 ≤ x ∧ x ≤ 10)),
   ("11-20", fun x => decide (11 ≤ x ∧ x ≤ 20)),
   ("21-50", fun x => decide (21 ≤ x ∧ x ≤ 50)),
   (">50", fun x => decide (50 < x))]

/-- One row of the distribution table of `calculate_records_distribution`. -/
structure DistRow where
  records_per_object : String
  number_of_objects : Nat
  percentage : Rat
deriving DecidableEq, Repr

/-- Embedding of `calculate_records_distribution` (analysis.py lines 144-190), the
distribution-table component of its result: one row per category, always all
six, with count and percentage (`0` when there are zero objects). -/
def calculate_records_distribution (df : List Row) : List DistRow :=
  let gs := groupSizes df
  let total := gs.length
  categories.map (fun c =>
    let count := (gs.filter c.2).length
    { records_per_object := c.1
      number_of_objects := count
      percentage := if 0 < total then (count : Rat) / (total : Rat) * 100 else 0 })

/-- Row-level exit classification,
`~((df['zone_exit_time'] == -1) | (df['zone_exit_time'] == '-1'))`. -/
def hasExitVal (v : Val) : Bool :=
  !(v == Val.int (-1) || v == Val.str "-1")

/-- A DataFrame as handed to `calculate_enter_exit_analysis`: the movement
rows plus the optional derived `has_exit` column (absent on the caller's
input; the function assigns it in place, without taking a copy). -/
structure DataFrame where
  rows : List Row
  has_exit : Option (List Bool)
deriving DecidableEq, Repr

/-- One row of the per-category table of `calculate_enter_exit_analysis`. -/
structure ExitCatRow where
  records_per_object : String
  total_records : Nat
  with_exit : Nat
  without_exit : Nat
  exit_pct : Rat
deriving DecidableEq, Repr

/-- The summary dict of `calculate_enter_exit_analysis`. -/
structure ExitSummary where
  total_records : Nat
  with_exit : Nat
  without_exit : Nat
  exit_percentage : Rat
deriving DecidableEq, Repr

/-- The objects whose row count lies in category `c`
(`group_sizes[condition(group_sizes)].index`). -/
def categoryObjects (df : List Row) (c : String × (Nat → Bool)) : List Nat :=
  (objectIds df).filter (fun o => c.2 (groupSize df o))

/-- The rows belonging to objects of category `c`
(`df[df['global_object_id'].isin(object_ids)]`). -/
def categoryRecords (df : List Row) (c : String × (Nat → Bool)) : List Row :=
  df.filter (fun r => decide (r.global_object_id ∈ categoryObjects df c))

/-- The output row of the per-category exit analysis for a nonempty
category `c`. -/
def exitCatRow (df : List Row) (c : String × (Nat → Bool)) : ExitCatRow :=
  { records_per_object := c.1
    total_records := (categoryRecords df c).length
    with_exit :=
      ((categoryRecords df c).filter (fun r => hasExitVal r.zone_exit_time)).length
    without_exit := (categoryRecords df c).length
      - ((categoryRecords df c).filter (fun r => hasExitVal r.zone_exit_time)).length
    exit_pct :=
      if 0 < (categoryRecords df c).length
      then (((categoryRecords df c).filter
              (fun r => hasExitVal r.zone_exit_time)).length : Rat)
            / ((categoryRecords df c).length : Rat) * 100
      else 0 }

/-- Embedding of `calculate_enter_exit_analysis` (analysis.py lines 193-252).  The first
component is the state of the caller's table after the call: the function
executes `df['has_exit'] = ...` on the argument itself, so the caller's table
gains the derived column.  The second and third components are the returned
per-category table and summary dict. -/
def calculate_enter_exit_analysis (df : DataFrame) :
    DataFrame × List ExitCatRow × ExitSummary :=
  let dfMut : DataFrame :=
    { df with has_exit := some (df.rows.map (fun r => hasExitVal r.zone_exit_time)) }
  let totalRecords := dfMut.rows.length
  let withExit := (dfMut.rows.filter (fun r => hasExitVal r.zone_exit_time)).length
  let summary : ExitSummary :=
    { total_records := totalRecords
      with_exit := withExit
      without_exit := totalRecords - withExit
      exit_percentage :=
        if 0 < totalRecords then (withExit : Rat) / (totalRecords : Rat) * 100 else 0 }
  let analysis := categories.filterMap (fun c =>
    if (categoryObjects dfMut.rows c).length = 0 then none
    else some (exitCatRow dfMut.rows c))
  (dfMut, analysis, summary)

/-- The `Records` column of the histogram table: an exact count `i`, or the
string label `'>' + str(max_value)` of the overflow bucket. -/
inductive HistLabel where
  | num (i : Nat)
  | above (bound : Nat)
deriving DecidableEq, Repr

/-- Embedding of `get_group_size_histogram_data` (analysis.py lines 255-286): frequencies
of exact per-object row counts `1 .. max_value` (zero-frequency values
skipped), then one `>max_value` bucket if nonempty. -/
def get_group_size_histogram_data (df : List Row) (max_value : Nat := 50) :
    List (HistLabel × Nat) :=
  let gs := groupSizes df
  ((List.range' 1 max_value).filterMap (fun i =>
      let count := (gs.filter (fun x => x == i)).length
      if 0 < count then some (HistLabel.num i, count) else none))
  ++ (let aboveMax := (gs.filter (fun x => decide (max_value < x))).length
      if 0 < aboveMax then [(HistLabel.above max_value, aboveMax)] else [])

/-! Spec-side formulations: the set-language entities of the specification
(object set, zone visitor sets, per-object record count, exit sentinel),
written independently of the list-level implementation above so that the
claim theorems genuinely compare the two. -/

/-- Spec-side: the set of distinct tracked objects of the dataset. -/
def objectSet (df : List Row) : Finset Nat :=
  (df.map (·.global_object_id)).toFinset

/-- Spec-side: the visitor set of zone `z` — the distinct objects having at
least one row in zone `z`. -/
def visitorSet (df : List Row) (z : Int) : Finset Nat :=
  (objectSet df).filter (fun o => ∃ r ∈ df, r.global_object_id = o ∧ r.zone_id = z)

/-- Spec-side: the number of rows object `o` contributes to the dataset. -/
def recordCount (df : List Row) (o : Nat) : Nat :=
  df.countP (fun r => r.global_object_id == o)

/-- Spec-side: the exit-time sentinel, `-1` in numeric or string form. -/
def isSentinelExit (v : Val) : Prop :=
  v = Val.int (-1) ∨ v = Val.str "-1"

instance decidableIsSentinelExit : DecidablePred isSentinelExit := fun v =>
  decidable_of_iff (v = Val.int (-1) ∨ v = Val.str "-1") Iff.rfl

/-! Concrete datasets used by counterexamples and witnesses. -/

/-- A movement row with the given object and zone, neutral times. -/
def mkRow (o : Nat) (z : Int) : Row :=
  ⟨o, z, Val.int 0, Val.int (-1), 0⟩

/-- The worked scenario of spec section 8: object 1 in zones 1,2,3;
object 2 in zone 2; object 3 in zones 1,4. -/
def dfScenario : List Row :=
  [mkRow 1 1, mkRow 1 2, mkRow 1 3, mkRow 2 2, mkRow 3 1, mkRow 3 4]

/-- A one-row table without a `has_exit` column, as a caller would pass it. -/
def dfC1 : DataFrame :=
  ⟨[⟨1, 1, Val.int 10, Val.int (-1), 3⟩], none⟩

/-- A `pd.to_datetime` string behaviour: the ISO date parses, all other
strings raise (as real pandas does on garbage text). -/
def parseStrC2 : String → Option Int :=
  fun s => if s = "2024-01-01" then some 19723 else none

/-- Two rows whose entry times are a parseable date and an unparseable
string: one retained value is parseable, another retained value is not. -/
def dfC2 : List Row :=
  [⟨1, 1, Val.str "2024-01-01", Val.int (-1), 0⟩,
   ⟨2, 1, Val.str "not a date", Val.int (-1), 0⟩]

/-- A string behaviour for the amended-claim witness: two named dates parse. -/
def parseStrW : String → Option Int :=
  fun s => if s = "d1" then some (-5) else if s = "d2" then some 7 else none

/-- Two rows with parseable entry-time strings `"d1"` and `"d2"`. -/
def dfW2 : List Row :=
  [⟨1, 1, Val.str "d1", Val.int (-1), 0⟩,
   ⟨2, 2, Val.str "d2", Val.int 3, 0⟩]

/-- Rows whose entry times are all the numeric `-1` sentinel. -/
def dfC10 : List Row :=
  [⟨1, 1, Val.int (-1), Val.int (-1), 0⟩,
   ⟨2, 2, Val.int (-1), Val.str "-1", 5⟩]

/-- A table whose rows all lie in the entrance zone. -/
def dfOnly1 : List Row :=
  [mkRow 1 1, mkRow 2 1]

/-! Bridging lemmas between the list-level implementation and the spec-side
set formulations. -/

theorem mem_objectIds {df : List Row} {o : Nat} :
    o ∈ objectIds df ↔ ∃ r ∈ df, r.global_object_id = o := by
  simp [objectIds, List.mem_dedup]

theorem mem_objectSet {df : List Row} {o : Nat} :
    o ∈ objectSet df ↔ ∃ r ∈ df, r.global_object_id = o := by
  simp [objectSet]

theorem nodup_objectIds (df : List Row) : (objectIds df).Nodup :=
  List.nodup_dedup _

theorem toFinset_objectIds (df : List Row) :
    (objectIds df).toFinset = objectSet df := by
  ext o
  simp [objectIds, objectSet, List.mem_dedup]

theorem length_objectIds (df : List Row) :
    (objectIds df).length = (objectSet df).card := by
  rw [← toFinset_objectIds, List.toFinset_card_of_nodup (nodup_objectIds df)]

theorem mem_zoneVisitors {df : List Row} {z : Int} {o : Nat} :
    o ∈ zoneVisitors df z ↔ ∃ r ∈ df, r.global_object_id = o ∧ r.zone_id = z := by
  simp only [zoneVisitors, List.mem_dedup, List.mem_map, List.mem_filter, beq_iff_eq]
  constructor
  · rintro ⟨r, ⟨hr, hz⟩, rfl⟩
    exact ⟨r, hr, rfl, hz⟩
  · rintro ⟨r, hr, rfl, hz⟩
    exact ⟨r, ⟨hr, hz⟩, rfl⟩

theorem nodup_zoneVisitors (df : List Row) (z : Int) : (zoneVisitors df z).Nodup :=
  List.nodup_dedup _

theorem toFinset_zoneVisitors (df : List Row) (z : Int) :
    (zoneVisitors df z).toFinset = visitorSet df z := by
  ext o
  simp only [List.mem_toFinset, mem_zoneVisitors, visitorSet, Finset.mem_filter,
    mem_objectSet]
  constructor
  · rintro ⟨r, hr, rfl, hz⟩
    exact ⟨⟨r, hr, rfl⟩, r, hr, rfl, hz⟩
  · rintro ⟨-, r, hr, rfl, hz⟩
    exact ⟨r, hr, rfl, hz⟩

theorem length_zoneVisitors (df : List Row) (z : Int) :
    (zoneVisitors df z).length = (visitorSet df z).card := by
  rw [← toFinset_zoneVisitors, List.toFinset_card_of_nodup (nodup_zoneVisitors df z)]

theorem mem_zonesVisited {df : List Row} {o : Nat} {z : Int} :
    z ∈ zonesVisited df o ↔ ∃ r ∈ df, r.global_object_id = o ∧ r.zone_id = z := by
  simp only [zonesVisited, List.mem_dedup, List.mem_map, List.mem_filter, beq_iff_eq]
  constructor
  · rintro ⟨r, ⟨hr, ho⟩, rfl⟩
    exact ⟨r, hr, ho, rfl⟩
  · rintro ⟨r, hr, ho, rfl⟩
    exact ⟨r, ⟨hr, ho⟩, rfl⟩

theorem mem_entranceVisitors {df : List Row} {o : Nat} :
    o ∈ entranceVisitors df ↔ o ∈ zoneVisitors df 1 := by
  simp only [entranceVisitors, List.mem_filter, mem_objectIds, mem_zonesVisited,
    mem_zoneVisitors, decide_eq_true_eq]
  constructor
  · rintro ⟨-, r, hr, ho, hz⟩
    exact ⟨r, hr, ho, hz⟩
  · rintro ⟨r, hr, ho, hz⟩
    exact ⟨⟨r, hr, ho⟩, r, hr, ho, hz⟩

theorem nodup_entranceVisitors (df : List Row) : (entranceVisitors df).Nodup :=
  (nodup_objectIds df).filter _

theorem length_entranceVisitors (df : List Row) :
    (entranceVisitors df).length = (visitorSet df 1).card := by
  have h1 : (entranceVisitors df).toFinset = visitorSet df 1 := by
    ext o
    rw [List.mem_toFinset, mem_entranceVisitors, ← List.mem_toFinset,
      toFinset_zoneVisitors]
  rw [← h1, List.toFinset_card_of_nodup (nodup_entranceVisitors df)]

theorem recordCount_eq_groupSize (df : List Row) (o : Nat) :
    recordCount df o = groupSize df o :=
  List.countP_eq_length_filter _ _

theorem groupSize_pos_of_mem_row {df : List Row} {r : Row} (hr : r ∈ df) :
    0 < groupSize df r.global_object_id := by
  have hm : r ∈ df.filter (fun x => x.global_object_id == r.global_object_id) :=
    List.mem_filter.2 ⟨hr, by simp⟩
  exact List.length_pos_of_mem hm

theorem groupSize_pos_of_mem {df : List Row} {o : Nat} (ho : o ∈ objectIds df) :
    0 < groupSize df o := by
  obtain ⟨r, hr, rfl⟩ := mem_objectIds.1 ho
  exact groupSize_pos_of_mem_row hr

theorem length_groupSizes (df : List Row) :
    (groupSizes df).length = (objectSet df).card := by
  rw [groupSizes, List.length_map, length_objectIds]

theorem mem_groupSizes_pos {df : List Row} {x : Nat} (hx : x ∈ groupSizes df) :
    0 < x := by
  obtain ⟨o, ho, rfl⟩ := List.mem_map.1 hx
  exact groupSize_pos_of_mem ho

/-! Generic counting lemmas for the partition arguments: a list of pairwise
incompatible, jointly exhaustive predicates splits a list's length into the
lengths of its filters. -/

theorem sum_map_add_nat {α : Type} (l : List α) (f g : α → Nat) :
    (l.map (fun x => f x + g x)).sum = (l.map f).sum + (l.map g).sum := by
  induction l with
  | nil => rfl
  | cons a l ih =>
      simp only [List.map_cons, List.sum_cons, ih]
      omega

theorem sum_map_ite_one {α : Type} (ps : List (α → Bool)) (a : α) :
    (ps.map (fun p => if p a then 1 else 0)).sum = ps.countP (fun p => p a) := by
  induction ps with
  | nil => rfl
  | cons p ps ih =>
      rw [List.map_cons, List.sum_cons, List.countP_cons, ih]
      exact Nat.add_comm _ _

theorem sum_countP_eq_length {α : Type} (ps : List (α → Bool)) (l : List α)
    (h : ∀ a ∈ l, ps.countP (fun p => p a) = 1) :
    (ps.map (fun p => l.countP p)).sum = l.length := by
  induction l with
  | nil => simp
  | cons a l ih =>
      have ha := h a (List.mem_cons_self a l)
      have ih' := ih (fun b hb => h b (List.mem_cons_of_mem a hb))
      have hstep : (ps.map (fun p => (a :: l).countP p)).sum
          = (ps.map (fun p => l.countP p + if p a then 1 else 0)).sum := by
        simp only [List.countP_cons]
      rw [hstep, sum_map_add_nat, ih', sum_map_ite_one, ha, List.length_cons]

/-- Every positive row count lies in exactly one of the six categories. -/
theorem categories_countP_one {n : Nat} (hn : 0 < n) :
    categories.countP (fun c => c.2 n) = 1 := by
  simp only [categories, List.countP_cons, List.countP_nil, beq_iff_eq,
    decide_eq_true_eq]
  split_ifs <;> omega

/-- Filtering a list of positive counts by the six categories partitions it. -/
theorem sum_category_filter_lengths (l : List Nat) (h : ∀ x ∈ l, 0 < x) :
    (categories.map (fun c => (l.filter c.2).length)).sum = l.length := by
  have h1 : categories.map (fun c => (l.filter c.2).length)
      = (categories.map (·.2)).map (fun p => l.countP p) := by
    rw [List.map_map]
    exact List.map_congr_left (fun c _ => (List.countP_eq_length_filter _ _).symm)
  rw [h1]
  apply sum_countP_eq_length
  intro x hx
  rw [List.countP_map]
  exact categories_countP_one (h x hx)

/-- Claim C1 (code bug witness): `calculate_enter_exit_analysis` does not
leave the caller's table unchanged.  It assigns the derived `has_exit`
column on the argument itself, taking no working copy, so after the call the
one-row input table differs from its pre-call state by the new column. -/
theorem C1_mutates_callers_table :
    (calculate_enter_exit_analysis dfC1).1 ≠ dfC1 ∧
    (calculate_enter_exit_analysis dfC1).1 = { dfC1 with has_exit := some [false] } := by
  constructor
  · decide
  · decide

/-- Claim C5: `calculate_records_distribution` always emits the six fixed
categories `1`, `2-5`, `6-10`, `11-20`, `21-50`, `>50` in that order; the
categories partition the positive integers (every positive row count matches
exactly one); and the category counts sum to the number of distinct objects. -/
theorem C5_records_distribution (df : List Row) :
    ((calculate_records_distribution df).map (·.records_per_object)
        = ["1", "2-5", "6-10", "11-20", "21-50", ">50"]) ∧
    (∀ n : Nat, 0 < n → categories.countP (fun c => c.2 n) = 1) ∧
    ((calculate_records_distribution df).map (·.number_of_objects)).sum
        = (objectSet df).card := by
  refine ⟨rfl, fun n hn => categories_countP_one hn, ?_⟩
  have h1 : (calculate_records_distribution df).map (·.number_of_objects)
      = categories.map (fun c => ((groupSizes df).filter c.2).length) := by
    simp [calculate_records_distribution, List.map_map]
  rw [h1, sum_category_filter_lengths _ (fun x hx => mem_groupSizes_pos hx),
    length_groupSizes]

/-- Witness for C5 at the scenario dataset and the row count 4. -/
theorem C5_witness :
    ((calculate_records_distribution dfScenario).map (·.number_of_objects)).sum
        = (objectSet dfScenario).card ∧
    categories.countP (fun c => c.2 4) = 1 :=
  ⟨(C5_records_distribution dfScenario).2.2,
   (C5_records_distribution dfScenario).2.1 4 (by decide)⟩

/-- Claim C7: with a zero denominator (no rows, hence no distinct objects)
every percentage of the three calculators is the special-cased `0` and the
computation totals normally: the missing-entrance percentage is 0, every
distribution-row percentage is 0, the overall exit percentage is 0, and the
per-category exit table is empty. -/
theorem C7_zero_denominators (df : List Row) (dfr : DataFrame)
    (hdf : objectSet df = ∅) (hrows : dfr.rows = df) :
    (calculate_missing_zone1_percentage df).1 = 0 ∧
    (∀ dr ∈ calculate_records_distribution df, dr.percentage = 0) ∧
    (calculate_enter_exit_analysis dfr).2.2.exit_percentage = 0 ∧
    (calculate_enter_exit_analysis dfr).2.1 = [] := by
  have hnil : df = [] := by
    cases df with
    | nil => rfl
    | cons r df =>
        exfalso
        have hm : r.global_object_id ∈ objectSet (r :: df) :=
          mem_objectSet.2 ⟨r, by simp⟩
        rw [hdf] at hm
        exact absurd hm (Finset.not_mem_empty _)
  subst hnil
  obtain ⟨rows, hx⟩ := dfr
  simp only at hrows
  subst hrows
  exact ⟨rfl, by decide, rfl, rfl⟩

/-- Witness for C7 at the empty table. -/
theorem C7_witness :
    (calculate_missing_zone1_percentage []).1 = 0 ∧
    (calculate_enter_exit_analysis ⟨[], none⟩).2.2.exit_percentage = 0 :=
  ⟨(C7_zero_denominators [] ⟨[], none⟩ rfl rfl).1,
   (C7_zero_denominators [] ⟨[], none⟩ rfl rfl).2.2.1⟩

/-- Claim C10: the absent-entry-time filter of `get_summary_statistics` drops
only the string `"-1"`; a numeric `-1` entry time is retained and parses
(pandas converts numbers to timestamps), so the dataset whose entry times are
all the numeric sentinel gets a defined date range — whatever the string
parsing behaviour. -/
theorem C10_numeric_sentinel (parseStr : String → Option Int) :
    (∀ df : List Row, ∀ r ∈ df, r.zone_entry_time ≠ Val.str "-1" →
        r.zone_entry_time ∈ validEntryTimes df) ∧
    (∀ r ∈ dfC10, r.zone_entry_time = Val.int (-1)) ∧
    (get_summary_statistics parseStr true dfC10).date_range = some (-1, -1) := by
  refine ⟨?_, by decide, rfl⟩
  intro df r hr hne
  exact List.mem_map.2 ⟨r, List.mem_filter.2 ⟨hr, by simp [hne]⟩, rfl⟩

/-- Witness for C10: the numeric sentinel row of `dfC10` is retained. -/
theorem C10_witness :
    Val.int (-1) ∈ validEntryTimes dfC10 :=
  (C10_numeric_sentinel (fun _ => none)).1 dfC10
    ⟨1, 1, Val.int (-1), Val.int (-1), 0⟩ (by decide) (by decide)

/-- Intersection length of the implementation equals the spec-side
intersection cardinality of the visitor sets. -/
theorem length_inter_zoneVisitors (df : List Row) (z : Int) :
    ((zoneVisitors df 1).inter (zoneVisitors df z)).length
      = (visitorSet df 1 ∩ visitorSet df z).card := by
  rw [← toFinset_zoneVisitors df 1, ← toFinset_zoneVisitors df z,
    ← List.toFinset_inter,
    List.toFinset_card_of_nodup (List.Nodup.inter _ (nodup_zoneVisitors df 1))]
  rfl

/-- Claim C3: `calculate_conversion_rates` emits exactly one pair per
distinct zone other than `1` present in the data, in ascending zone order,
whose count is the cardinality of the intersection of zone 1's visitor set
with that zone's visitor set; if only zone 1 occurs the output is empty, and
if zone 1 never occurs every count is zero. -/
theorem C3_conversion_rates (df : List Row) :
    ((calculate_conversion_rates df).map Prod.fst).Sorted (· < ·) ∧
    (∀ z : Int, (∃ c, (z, c) ∈ calculate_conversion_rates df) ↔
        (z ≠ 1 ∧ ∃ r ∈ df, r.zone_id = z)) ∧
    (∀ p ∈ calculate_conversion_rates df,
        p.2 = (visitorSet df 1 ∩ visitorSet df p.1).card) ∧
    ((∀ r ∈ df, r.zone_id = 1) → calculate_conversion_rates df = []) ∧
    ((∀ r ∈ df, r.zone_id ≠ 1) →
        ∀ p ∈ calculate_conversion_rates df, p.2 = 0) := by
  have hmemNE : ∀ z : Int,
      z ∈ nonEntranceZones df ↔ (z ≠ 1 ∧ ∃ r ∈ df, r.zone_id = z) := by
    intro z
    simp only [nonEntranceZones, Finset.mem_filter, List.mem_toFinset,
      List.mem_map]
    constructor
    · rintro ⟨⟨r, hr, hz⟩, hne⟩
      exact ⟨hne, r, hr, hz⟩
    · rintro ⟨hne, r, hr, hz⟩
      exact ⟨⟨r, hr, hz⟩, hne⟩
  refine ⟨?_, ?_, ?_, ?_, ?_⟩
  · have hfst : (calculate_conversion_rates df).map Prod.fst
        = (nonEntranceZones df).sort (· ≤ ·) := by
      rw [calculate_conversion_rates, List.map_map]
      exact List.map_id ((nonEntranceZones df).sort (· ≤ ·))
    rw [hfst]
    exact Finset.sort_sorted_lt _
  · intro z
    constructor
    · rintro ⟨c, hc⟩
      obtain ⟨z', hz', heq⟩ := List.mem_map.1 hc
      have hz1 : z' = z := congrArg Prod.fst heq
      subst hz1
      exact (hmemNE z').1 (Finset.mem_sort (α := Int) (· ≤ ·) |>.1 hz')
    · intro hz
      refine ⟨((zoneVisitors df 1).inter (zoneVisitors df z)).length, ?_⟩
      exact List.mem_map.2 ⟨z, (Finset.mem_sort (α := Int) (· ≤ ·)).2 ((hmemNE z).2 hz), rfl⟩
  · intro p hp
    obtain ⟨z, hz, heq⟩ := List.mem_map.1 hp
    subst heq
    exact length_inter_zoneVisitors df z
  · intro hall
    have hempty : nonEntranceZones df = ∅ := by
      ext z
      simp only [nonEntranceZones, Finset.mem_filter, List.mem_toFinset,
        List.mem_map, Finset.not_mem_empty, iff_false, not_and]
      rintro ⟨r, hr, hz⟩ hne
      exact hne (hz ▸ hall r hr)
    rw [calculate_conversion_rates, hempty, Finset.sort_empty]
    rfl
  · intro hno p hp
    have h0 : zoneVisitors df 1 = [] := by
      have hf : df.filter (fun r => r.zone_id == 1) = [] :=
        List.filter_eq_nil_iff.2 (fun r hr => by simp [hno r hr])
      rw [zoneVisitors, hf]
      rfl
    obtain ⟨z, hz, heq⟩ := List.mem_map.1 hp
    subst heq
    simp [h0, List.inter]

/-- Witness for C3: a table whose rows all lie in zone 1 yields no pairs. -/
theorem C3_witness : calculate_conversion_rates dfOnly1 = [] :=
  (C3_conversion_rates dfOnly1).2.2.2.1 (by decide)

/-- Every entry of `zone_counts` is at least 1: an entrance visitor has the
entrance zone in its zone set. -/
theorem one_le_of_mem_zoneCounts {df : List Row} {c : Nat} (hc : c ∈ zoneCounts df) :
    1 ≤ c := by
  obtain ⟨o, ho, rfl⟩ := List.mem_map.1 hc
  have h1 : (1 : Int) ∈ zonesVisited df o := by
    have h2 := (List.mem_filter.1 ho).2
    simpa using h2
  exact List.length_pos_of_mem h1

/-- Raising the threshold can only shrink the cumulative count. -/
theorem zoneCounts_filter_antitone (df : List Row) {s t : Nat} (h : s ≤ t) :
    ((zoneCounts df).filter (fun c => decide (t ≤ c))).length
      ≤ ((zoneCounts df).filter (fun c => decide (s ≤ c))).length := by
  apply List.Sublist.length_le
  apply List.monotone_filter_right
  intro a ha
  simp only [decide_eq_true_eq] at ha ⊢
  omega

/-- The first row of `calculate_zone_frequency` is the `"1+"` row, and its
count is the number of entrance-visiting objects. -/
theorem zone_frequency_head (df : List Row) :
    (calculate_zone_frequency df).head? = some ("1+", (visitorSet df 1).card) := by
  have hN : max 6 (maxZones df + 1) - 1 = (max 6 (maxZones df + 1) - 2) + 1 := by
    omega
  rw [calculate_zone_frequency, hN, List.range'_succ, List.map_cons, List.head?_cons]
  have hs : toString 1 ++ "+" = "1+" := rfl
  have hc : ((zoneCounts df).filter (fun c => decide (1 ≤ c))).length
      = (visitorSet df 1).card := by
    rw [List.filter_eq_self.2 (fun c hc => by simpa using one_le_of_mem_zoneCounts hc),
      zoneCounts, List.length_map, length_entranceVisitors]
  rw [hs, hc]

/-- Claim C4: the cumulative counts of `calculate_zone_frequency` are
monotonically non-increasing in the threshold, and the `"1+"` row counts
exactly the entrance-visiting objects. -/
theorem C4_zone_frequency (df : List Row) :
    ((calculate_zone_frequency df).map Prod.snd).Sorted (· ≥ ·) ∧
    (calculate_zone_frequency df).head? = some ("1+", (visitorSet df 1).card) := by
  refine ⟨?_, zone_frequency_head df⟩
  rw [calculate_zone_frequency, List.map_map]
  refine (List.pairwise_map).2 ?_
  refine (List.pairwise_lt_range' 1 _).imp ?_
  intro a b hab
  exact zoneCounts_filter_antitone df (Nat.le_of_lt hab)

/-- Claim C9: the three independently computed entrance-visitor counts agree:
`unique_property_enter` of the summary, `total - missing` of the
missing-entrance calculator, and the `"1+"` count of the zone frequency all
equal the cardinality of zone 1's visitor set. -/
theorem C9_entrance_counts_agree (parseStr : String → Option Int)
    (hasEntryCol : Bool) (df : List Row) :
    (get_summary_statistics parseStr hasEntryCol df).unique_property_enter
        = (visitorSet df 1).card ∧
    (calculate_missing_zone1_percentage df).2.2
        - (calculate_missing_zone1_percentage df).2.1 = (visitorSet df 1).card ∧
    (calculate_zone_frequency df).head? = some ("1+", (visitorSet df 1).card) := by
  refine ⟨length_zoneVisitors df 1, ?_, zone_frequency_head df⟩
  have hsplit : (objectIds df).length
      = ((objectIds df).filter (fun o => decide (o ∈ zoneVisitors df 1))).length
        + ((objectIds df).filter (fun o => decide (o ∉ zoneVisitors df 1))).length := by
    rw [← List.countP_eq_length_filter, ← List.countP_eq_length_filter]
    rw [List.length_eq_countP_add_countP (fun o : Nat => decide (o ∈ zoneVisitors df 1))]
    congr 1
    apply List.countP_congr
    intro o ho
    simp
  have hin : ((objectIds df).filter (fun o => decide (o ∈ zoneVisitors df 1))).length
      = (visitorSet df 1).card := by
    have hnd : ((objectIds df).filter
        (fun o => decide (o ∈ zoneVisitors df 1))).Nodup :=
      (nodup_objectIds df).filter _
    have htf : ((objectIds df).filter
        (fun o => decide (o ∈ zoneVisitors df 1))).toFinset = visitorSet df 1 := by
      ext o
      simp only [List.mem_toFinset, List.mem_filter, decide_eq_true_eq]
      constructor
      · rintro ⟨-, h⟩
        rw [← List.mem_toFinset, toFinset_zoneVisitors] at h
        exact h
      · intro h
        have h' : o ∈ zoneVisitors df 1 := by
          rw [← List.mem_toFinset, toFinset_zoneVisitors]
          exact h
        obtain ⟨r, hr, ho, -⟩ := mem_zoneVisitors.1 h'
        exact ⟨mem_objectIds.2 ⟨r, hr, ho⟩, h'⟩
    rw [← htf, List.toFinset_card_of_nodup hnd]
  have e1 : (calculate_missing_zone1_percentage df).2.1
      = ((objectIds df).filter (fun o => decide (o ∉ zoneVisitors df 1))).length := rfl
  have e2 : (calculate_missing_zone1_percentage df).2.2
      = (objectIds df).length := rfl
  rw [e1, e2]
  omega

/-- The all-or-nothing series conversion succeeds iff every element parses. -/
theorem toDatetimeSeries_isSome_iff {f : String → Option Int} {l : List Val} :
    (toDatetimeSeries f l).isSome ↔ ∀ v ∈ l, (pdToDatetime f v).isSome := by
  induction l with
  | nil => simp [toDatetimeSeries]
  | cons v vs ih =>
      rw [toDatetimeSeries]
      cases hv : pdToDatetime f v with
      | none => simp [hv]
      | some t =>
          cases hvs : toDatetimeSeries f vs with
          | none =>
              rw [hvs] at ih
              simp only [Option.isSome_none, Bool.false_eq_true, false_iff,
                not_forall] at ih
              simp only [Option.isSome_none, Bool.false_eq_true, false_iff,
                not_forall, List.forall_mem_cons]
              obtain ⟨w, hw, hws⟩ := ih
              intro hcon
              exact hws (hcon.2 w hw)
          | some ts =>
              rw [hvs] at ih
              simp only [Option.isSome_some, true_iff] at ih
              simp only [Option.isSome_some, true_iff, List.forall_mem_cons]
              exact ⟨by simp [hv], ih⟩

/-- Claim C2 fails as stated: in `dfC2` one retained entry-time value parses
and is not the sentinel, yet the date range is reported absent — the series
conversion raises on the other retained value and the bare `except` swallows
the whole range. -/
theorem C2_counterexample :
    (∃ v ∈ validEntryTimes dfC2,
        v ≠ Val.str "-1" ∧ (pdToDatetime parseStrC2 v).isSome) ∧
    (get_summary_statistics parseStrC2 true dfC2).date_range = none := by
  constructor
  · exact ⟨Val.str "2024-01-01", by decide, by decide, by decide⟩
  · rfl

/-- Claim C2, amended: the date range is reported (non-`None`) iff the
entry-time column is present, at least one value differs from the string
sentinel `"-1"`, and every retained value parses — one parseable value among
the retained ones is not enough, since the series conversion is
all-or-nothing; when it succeeds, the range is the minimum and maximum parsed
timestamp, and a failure degrades to an absent range instead of raising. -/
theorem C2_date_range_amended (parseStr : String → Option Int) (hasEntryCol : Bool)
    (df : List Row) :
    ((get_summary_statistics parseStr hasEntryCol df).date_range ≠ none ↔
      (hasEntryCol = true ∧ validEntryTimes df ≠ [] ∧
        ∀ v ∈ validEntryTimes df, (pdToDatetime parseStr v).isSome)) ∧
    (∀ ts : List Int, hasEntryCol = true →
        toDatetimeSeries parseStr (validEntryTimes df) = some ts →
        validEntryTimes df ≠ [] →
        (get_summary_statistics parseStr hasEntryCol df).date_range
          = some (listMin ts, listMax ts)) := by
  have hdr : (get_summary_statistics parseStr hasEntryCol df).date_range
      = if hasEntryCol then
          (if 0 < (validEntryTimes df).length then
            (match toDatetimeSeries parseStr (validEntryTimes df) with
             | some ts => some (listMin ts, listMax ts)
             | none => none)
          else none)
        else none := rfl
  cases hasEntryCol with
  | false => simp [hdr]
  | true =>
      by_cases hv : validEntryTimes df = []
      · refine ⟨by simp [hdr, hv], ?_⟩
        intro ts _ hser hne
        exact absurd hv hne
      · have hlen : 0 < (validEntryTimes df).length := List.length_pos.2 hv
        have hdr2 : (get_summary_statistics parseStr true df).date_range ≠ none
            ↔ (toDatetimeSeries parseStr (validEntryTimes df)).isSome := by
          cases hser : toDatetimeSeries parseStr (validEntryTimes df) with
          | none => simp [hdr, hlen, hser]
          | some ts => simp [hdr, hlen, hser]
        constructor
        · rw [hdr2, toDatetimeSeries_isSome_iff]
          simp [hv]
        · intro ts _ hser hne
          simp [hdr, hlen, hser]

/-- Witness for the amended C2 at a table whose retained entry-time strings
both parse: the range is the minimum and maximum parsed timestamp. -/
theorem C2_amended_witness :
    (get_summary_statistics parseStrW true dfW2).date_range = some (-5, 7) := by
  have h := (C2_date_range_amended parseStrW true dfW2).2 [-5, 7] rfl
    (by decide) (by decide)
  rw [h]
  decide

/-- The row-level exit test is the negation of the sentinel predicate. -/
theorem hasExitVal_eq_not_sentinel (v : Val) :
    hasExitVal v = decide (¬ isSentinelExit v) := by
  cases v with
  | int n =>
      by_cases h : n = -1 <;> simp [hasExitVal, isSentinelExit, h]
  | str s =>
      by_cases h : s = "-1" <;> simp [hasExitVal, isSentinelExit, h]

/-- Complement counting: length minus a `countP` is the `countP` of the
negation. -/
theorem length_sub_countP {α : Type} (l : List α) (p : α → Bool) :
    l.length - l.countP p = l.countP (fun a => !(p a)) := by
  have h1 := List.length_eq_countP_add_countP (p := p) (l := l)
  have h2 : l.countP (fun a => decide ¬(p a = true)) = l.countP (fun a => !(p a)) :=
    List.countP_congr (fun x _ => by simp)
  omega

/-- Membership filter against `categoryObjects` coincides with the direct
row-count test, row by row. -/
theorem categoryRecords_eq (rows : List Row) (c : String × (Nat → Bool)) :
    categoryRecords rows c
      = rows.filter (fun r => c.2 (groupSize rows r.global_object_id)) := by
  apply List.filter_congr
  intro r hr
  have hmem : r.global_object_id ∈ objectIds rows := mem_objectIds.2 ⟨r, hr, rfl⟩
  by_cases hc : c.2 (groupSize rows r.global_object_id) = true
  · rw [hc]
    exact decide_eq_true (List.mem_filter.2 ⟨hmem, hc⟩)
  · rw [Bool.not_eq_true] at hc
    rw [hc]
    apply decide_eq_false
    intro hmem2
    have h3 := (List.mem_filter.1 hmem2).2
    rw [hc] at h3
    cases h3

/-- A category with no objects contributes no rows. -/
theorem filter_category_nil {rows : List Row} {c : String × (Nat → Bool)}
    (h0 : (categoryObjects rows c).length = 0) :
    (rows.filter (fun r => c.2 (groupSize rows r.global_object_id))).length = 0 := by
  rw [List.length_eq_zero] at h0 ⊢
  rw [List.filter_eq_nil_iff]
  intro r hr hc
  have hmem : r.global_object_id ∈ categoryObjects rows c :=
    List.mem_filter.2 ⟨mem_objectIds.2 ⟨r, hr, rfl⟩, hc⟩
  rw [h0] at hmem
  cases hmem

/-- The six category row filters partition the rows of the table. -/
theorem sum_category_row_filters (rows : List Row) :
    (categories.map (fun c =>
        (rows.filter (fun r => c.2 (groupSize rows r.global_object_id))).length)).sum
      = rows.length := by
  have h1 : categories.map (fun c =>
        (rows.filter (fun r => c.2 (groupSize rows r.global_object_id))).length)
      = (categories.map
          (fun c => fun r : Row => c.2 (groupSize rows r.global_object_id))).map
            (fun p => rows.countP p) := by
    rw [List.map_map]
    exact List.map_congr_left (fun c _ => (List.countP_eq_length_filter _ _).symm)
  rw [h1]
  apply sum_countP_eq_length
  intro r hr
  rw [List.countP_map]
  exact categories_countP_one (groupSize_pos_of_mem_row hr)

/-- Summing `total_records` over the skip-empty `filterMap` equals summing a
per-category row count that vanishes on the skipped categories. -/
theorem sum_filterMap_totals {γ : Type} (cs : List γ) (g : γ → Option ExitCatRow)
    (f : γ → Nat)
    (h : ∀ c ∈ cs, (match g c with | some cr => cr.total_records | none => 0) = f c) :
    ((cs.filterMap g).map (·.total_records)).sum = (cs.map f).sum := by
  induction cs with
  | nil => rfl
  | cons c cs ih =>
      have hc := h c (List.mem_cons_self c cs)
      have ih' := ih (fun d hd => h d (List.mem_cons_of_mem c hd))
      cases hg : g c with
      | none =>
          rw [hg] at hc
          have hc0 : f c = 0 := hc.symm
          rw [List.filterMap_cons_none hg, ih', List.map_cons, List.sum_cons, hc0]
          omega
      | some cr =>
          rw [hg] at hc
          have hc1 : cr.total_records = f c := hc
          rw [List.filterMap_cons_some hg, List.map_cons, List.sum_cons,
            List.map_cons, List.sum_cons, ih', hc1]

/-- Labels of a skip-empty `filterMap` are the labels of the kept
categories. -/
theorem filterMap_ite_map_label {γ : Type} (cs : List γ) (P : γ → Prop)
    [DecidablePred P] (F : γ → ExitCatRow) (lbl : γ → String)
    (hF : ∀ c, (F c).records_per_object = lbl c) :
    ((cs.filterMap (fun c => if P c then none else some (F c))).map
        (·.records_per_object))
      = (cs.filter (fun c => decide ¬(P c))).map lbl := by
  induction cs with
  | nil => rfl
  | cons c cs ih =>
      by_cases hb : P c
      · simp [List.filterMap_cons, List.filter_cons, hb, ih]
      · simp [List.filterMap_cons, List.filter_cons, hb, hF, ih]

/-- Claim C6: a row is classified "without exit" iff its exit time equals the
sentinel `-1` in numeric or string form (the derived column is the pointwise
negation of the sentinel predicate and the summary's without-exit field
counts exactly the sentinel rows); in the per-category table,
With + Without = Total for every emitted row, exactly the categories with a
contributing object are emitted (in category order), and the emitted totals
sum to the grand row count. -/
theorem C6_enter_exit_analysis (dfr : DataFrame) :
    ((calculate_enter_exit_analysis dfr).1.has_exit
        = some (dfr.rows.map (fun r => decide (¬ isSentinelExit r.zone_exit_time)))) ∧
    ((calculate_enter_exit_analysis dfr).2.2.without_exit
        = dfr.rows.countP (fun r => decide (isSentinelExit r.zone_exit_time))) ∧
    (∀ cr ∈ (calculate_enter_exit_analysis dfr).2.1,
        cr.with_exit + cr.without_exit = cr.total_records) ∧
    ((calculate_enter_exit_analysis dfr).2.1.map (·.records_per_object)
        = (categories.filter (fun c =>
            decide (∃ o ∈ objectSet dfr.rows, c.2 (recordCount dfr.rows o)))).map
              Prod.fst) ∧
    (((calculate_enter_exit_analysis dfr).2.1.map (·.total_records)).sum
        = dfr.rows.length) := by
  have hanalysis : (calculate_enter_exit_analysis dfr).2.1
      = categories.filterMap (fun c =>
          if (categoryObjects dfr.rows c).length = 0 then none
          else some (exitCatRow dfr.rows c)) := rfl
  refine ⟨?_, ?_, ?_, ?_, ?_⟩
  · have h1 : (calculate_enter_exit_analysis dfr).1.has_exit
        = some (dfr.rows.map (fun r => hasExitVal r.zone_exit_time)) := rfl
    rw [h1]
    exact congrArg some
      (List.map_congr_left (fun r _ => hasExitVal_eq_not_sentinel _))
  · have h2 : (calculate_enter_exit_analysis dfr).2.2.without_exit
        = dfr.rows.length
          - (dfr.rows.filter (fun r => hasExitVal r.zone_exit_time)).length := rfl
    rw [h2, ← List.countP_eq_length_filter, length_sub_countP]
    apply List.countP_congr
    intro r hr
    rw [hasExitVal_eq_not_sentinel]
    simp
  · intro cr hcr
    rw [hanalysis] at hcr
    obtain ⟨c, hc, hg⟩ := List.mem_filterMap.1 hcr
    by_cases h0 : (categoryObjects dfr.rows c).length = 0
    · rw [if_pos h0] at hg
      cases hg
    · rw [if_neg h0] at hg
      obtain rfl := Option.some.inj hg
      have hle : ((categoryRecords dfr.rows c).filter
            (fun r => hasExitVal r.zone_exit_time)).length
          ≤ (categoryRecords dfr.rows c).length := List.length_filter_le _ _
      show ((categoryRecords dfr.rows c).filter
            (fun r => hasExitVal r.zone_exit_time)).length
          + ((categoryRecords dfr.rows c).length
            - ((categoryRecords dfr.rows c).filter
                (fun r => hasExitVal r.zone_exit_time)).length)
          = (categoryRecords dfr.rows c).length
      omega
  · rw [hanalysis,
      filterMap_ite_map_label categories
        (fun c => (categoryObjects dfr.rows c).length = 0)
        (exitCatRow dfr.rows) Prod.fst (fun c => rfl)]
    congr 1
    apply List.filter_congr
    intro c hc
    rw [decide_eq_decide]
    constructor
    · intro hne
      have hpos : 0 < (categoryObjects dfr.rows c).length := Nat.pos_of_ne_zero hne
      rw [categoryObjects, ← List.countP_eq_length_filter] at hpos
      obtain ⟨o, ho, hco⟩ := List.countP_pos_iff.1 hpos
      obtain ⟨r, hr, rfl⟩ := mem_objectIds.1 ho
      refine ⟨r.global_object_id, mem_objectSet.2 ⟨r, hr, rfl⟩, ?_⟩
      rw [recordCount_eq_groupSize]
      exact hco
    · rintro ⟨o, ho, hco⟩ h0
      rw [categoryObjects, ← List.countP_eq_length_filter] at h0
      have hpos : 0 < (objectIds dfr.rows).countP
          (fun o => c.2 (groupSize dfr.rows o)) := by
        apply List.countP_pos_iff.2
        refine ⟨o, ?_, ?_⟩
        · obtain ⟨r, hr, rfl⟩ := mem_objectSet.1 ho
          exact mem_objectIds.2 ⟨r, hr, rfl⟩
        · rw [← recordCount_eq_groupSize]
          exact hco
      omega
  · rw [hanalysis]
    rw [sum_filterMap_totals categories _
      (fun c => (dfr.rows.filter
          (fun r => c.2 (groupSize dfr.rows r.global_object_id))).length) ?_]
    · exact sum_category_row_filters dfr.rows
    · intro c hc
      by_cases h0 : (categoryObjects dfr.rows c).length = 0
      · rw [if_pos h0]
        exact (filter_category_nil h0).symm
      · rw [if_neg h0]
        show (categoryRecords dfr.rows c).length = _
        rw [categoryRecords_eq]

/-- Witness for C6 at the scenario table: the `"1"` category row (object 2,
one record, without exit) satisfies With + Without = Total. -/
theorem C6_witness :
    (exitCatRow dfScenario ("1", fun x => x == 1)).with_exit
      + (exitCatRow dfScenario ("1", fun x => x == 1)).without_exit
      = (exitCatRow dfScenario ("1", fun x => x == 1)).total_records :=
  (C6_enter_exit_analysis ⟨dfScenario, none⟩).2.2.1 _
    (List.mem_filterMap.2 ⟨("1", fun x => x == 1), List.mem_cons_self _ _,
      by rw [if_neg (by decide)]⟩)

/-- Dropping the empty exact-count buckets does not change the histogram's
total frequency. -/
theorem sum_hist_filterMap (l : List Nat) (cnt : Nat → Nat) :
    ((l.filterMap (fun i =>
        if 0 < cnt i then some (HistLabel.num i, cnt i) else none)).map
          Prod.snd).sum
      = (l.map cnt).sum := by
  induction l with
  | nil => rfl
  | cons i l ih =>
      by_cases h : 0 < cnt i
      · rw [List.filterMap_cons_some (by rw [if_pos h]), List.map_cons,
          List.sum_cons, List.map_cons, List.sum_cons, ih]
      · have h0 : cnt i = 0 := by omega
        rw [List.filterMap_cons_none (by rw [if_neg h]), ih, List.map_cons,
          List.sum_cons, h0]
        omega

/-- Positive values split between the exact buckets `1 .. m` and the
overflow bucket. -/
theorem sum_exact_buckets_add_overflow (gs : List Nat) (m : Nat)
    (hpos : ∀ x ∈ gs, 0 < x) :
    ((List.range' 1 m).map (fun i => (gs.filter (fun x => x == i)).length)).sum
      + (gs.filter (fun x => decide (m < x))).length = gs.length := by
  have key := sum_countP_eq_length
    ((List.range' 1 m).map (fun i => fun x : Nat => x == i)
      ++ [fun x : Nat => decide (m < x)]) gs ?_
  · rw [List.map_append, List.sum_append, List.map_map] at key
    have hA : ((List.range' 1 m).map
          ((fun p => gs.countP p) ∘ fun i => fun x : Nat => x == i)).sum
        = ((List.range' 1 m).map
            (fun i => (gs.filter (fun x => x == i)).length)).sum := by
      congr 1
      exact List.map_congr_left (fun i _ => List.countP_eq_length_filter _ _)
    have hB : (([fun x : Nat => decide (m < x)]).map (fun p => gs.countP p)).sum
        = (gs.filter (fun x => decide (m < x))).length := by
      simp [List.countP_eq_length_filter]
    rw [hA, hB] at key
    exact key
  · intro x hx
    rw [List.countP_append, List.countP_map]
    show (List.range' 1 m).countP (fun i => x == i)
        + List.countP (fun p => p x) [fun x' : Nat => decide (m < x')] = 1
    by_cases hxm : x ≤ m
    · have h1 : (List.range' 1 m).countP (fun i => x == i) = 1 := by
        have hswap : (List.range' 1 m).countP (fun i => x == i)
            = (List.range' 1 m).countP (fun i => i == x) :=
          List.countP_congr (fun i _ => by
            constructor
            · intro h
              exact beq_iff_eq.2 (beq_iff_eq.1 h).symm
            · intro h
              exact beq_iff_eq.2 (beq_iff_eq.1 h).symm)
        have hmem : x ∈ List.range' 1 m := by
          rw [List.mem_range'_1]
          exact ⟨hpos x hx, by omega⟩
        have hcnt : (List.range' 1 m).count x = 1 :=
          List.count_eq_one_of_mem (List.nodup_range' 1 m) hmem
        rw [hswap]
        exact hcnt
      have h2 : List.countP (fun p => p x) [fun x' : Nat => decide (m < x')] = 0 := by
        rw [List.countP_cons, List.countP_nil]
        show 0 + (if decide (m < x) = true then 1 else 0) = 0
        rw [decide_eq_false (by omega : ¬ (m < x))]
        rfl
      rw [h1, h2]
    · have h1 : (List.range' 1 m).countP (fun i => x == i) = 0 := by
        rw [List.countP_eq_zero]
        intro i hi hbe
        have hxi : x = i := beq_iff_eq.1 hbe
        rw [List.mem_range'_1] at hi
        omega
      have h2 : List.countP (fun p => p x) [fun x' : Nat => decide (m < x')] = 1 := by
        rw [List.countP_cons, List.countP_nil]
        show 0 + (if decide (m < x) = true then 1 else 0) = 1
        rw [decide_eq_true (by omega : m < x)]
        rfl
      rw [h1, h2]

/-- Claim C8: for every positive bound, the histogram's frequencies — the
exact-count rows `1 .. bound` plus the overflow bucket when present — sum to
the number of distinct objects; the overflow bucket appears exactly when some
object exceeds the bound; and every emitted exact-count row has a positive
frequency (zero-frequency counts are omitted). -/
theorem C8_histogram (df : List Row) (m : Nat) (hm : 0 < m) :
    (((get_group_size_histogram_data df m).map Prod.snd).sum
        = (objectSet df).card) ∧
    ((∃ c, (HistLabel.above m, c) ∈ get_group_size_histogram_data df m) ↔
      ∃ o ∈ objectSet df, m < recordCount df o) ∧
    (∀ i c, (HistLabel.num i, c) ∈ get_group_size_histogram_data df m → 0 < c) := by
  have hdef : get_group_size_histogram_data df m
      = ((List.range' 1 m).filterMap (fun i =>
          if 0 < ((groupSizes df).filter (fun x => x == i)).length
          then some (HistLabel.num i,
                     ((groupSizes df).filter (fun x => x == i)).length)
          else none))
        ++ (if 0 < ((groupSizes df).filter (fun x => decide (m < x))).length
            then [(HistLabel.above m,
                   ((groupSizes df).filter (fun x => decide (m < x))).length)]
            else []) := rfl
  refine ⟨?_, ?_, ?_⟩
  · rw [hdef, List.map_append, List.sum_append,
      sum_hist_filterMap (List.range' 1 m)
        (fun i => ((groupSizes df).filter (fun x => x == i)).length)]
    have hB : ((if 0 < ((groupSizes df).filter (fun x => decide (m < x))).length
          then [(HistLabel.above m,
                 ((groupSizes df).filter (fun x => decide (m < x))).length)]
          else []).map Prod.snd).sum
        = ((groupSizes df).filter (fun x => decide (m < x))).length := by
      by_cases h : 0 < ((groupSizes df).filter (fun x => decide (m < x))).length
      · rw [if_pos h]
        simp
      · rw [if_neg h]
        have h0 : ((groupSizes df).filter (fun x => decide (m < x))).length = 0 := by
          omega
        rw [h0]
        rfl
    rw [hB, sum_exact_buckets_add_overflow _ _ (fun x hx => mem_groupSizes_pos hx),
      length_groupSizes]
  · rw [hdef]
    constructor
    · rintro ⟨c, hc⟩
      rcases List.mem_append.1 hc with hA | hB2
      · exfalso
        obtain ⟨i, hi, hg⟩ := List.mem_filterMap.1 hA
        by_cases h : 0 < ((groupSizes df).filter (fun x => x == i)).length
        · rw [if_pos h] at hg
          simp at hg
        · rw [if_neg h] at hg
          cases hg
      · by_cases h : 0 < ((groupSizes df).filter (fun x => decide (m < x))).length
        · rw [← List.countP_eq_length_filter] at h
          obtain ⟨x, hx, hlt⟩ := List.countP_pos_iff.1 h
          obtain ⟨o, ho, rfl⟩ := List.mem_map.1 hx
          refine ⟨o, mem_objectSet.2 (mem_objectIds.1 ho), ?_⟩
          rw [recordCount_eq_groupSize]
          exact of_decide_eq_true hlt
        · rw [if_neg h] at hB2
          cases hB2
    · rintro ⟨o, ho, hlt⟩
      have hpos : 0 < ((groupSizes df).filter (fun x => decide (m < x))).length := by
        rw [← List.countP_eq_length_filter]
        apply List.countP_pos_iff.2
        refine ⟨groupSize df o, List.mem_map.2
          ⟨o, mem_objectIds.2 (mem_objectSet.1 ho), rfl⟩, ?_⟩
        rw [recordCount_eq_groupSize] at hlt
        exact decide_eq_true hlt
      refine ⟨((groupSizes df).filter (fun x => decide (m < x))).length, ?_⟩
      apply List.mem_append.2
      right
      rw [if_pos hpos]
      exact List.mem_singleton.2 rfl
  · intro i c hc
    rw [hdef] at hc
    rcases List.mem_append.1 hc with hA | hB2
    · obtain ⟨j, hj, hg⟩ := List.mem_filterMap.1 hA
      by_cases h : 0 < ((groupSizes df).filter (fun x => x == j)).length
      · rw [if_pos h] at hg
        have heq := Option.some.inj hg
        have hsnd : ((groupSizes df).filter (fun x => x == j)).length = c :=
          congrArg Prod.snd heq
        rw [← hsnd]
        exact h
      · rw [if_neg h] at hg
        cases hg
    · by_cases h : 0 < ((groupSizes df).filter (fun x => decide (m < x))).length
      · rw [if_pos h] at hB2
        have heq := List.mem_singleton.1 hB2
        exact absurd (congrArg Prod.fst heq) (by simp)
      · rw [if_neg h] at hB2
        cases hB2

/-- Witness for C8 at the scenario dataset and the default bound 50. -/
theorem C8_witness :
    ((get_group_size_histogram_data dfScenario 50).map Prod.snd).sum
      = (objectSet dfScenario).card :=
  (C8_histogram dfScenario 50 (by decide)).1

end GMR
